import Mathlib

/-!
Verification development for the openarm_can core library.

The repository ships the Python-facing test-suite, examples and package
declarations of the library; the Rust core itself (codec, socket, motor,
device collection, facade) is not among the shipped sources.  The
definitions below therefore embed that core as described by the
specification, cross-checked against the concrete byte-level expectations
recorded in the shipped compliance tests
(tests/test_compliance.py, tests/test_hardware.py).

Machine floats are embedded exactly: an IEEE-754 binary32 bit pattern is
mapped to the rational number it denotes (decoding is exact), and encoding
rounds a rational to the nearest representable value.  Machine integers are
naturals with explicit reductions modulo 256 where byte extraction matters.
-/

namespace OpenArmCan

/-- Modelled from the spec: closed enumeration of the 13 actuator variants. -/
inductive MotorType
  | DM3507
  | DM4310
  | DM4310_48V
  | DM4340
  | DM4340_48V
  | DM6006
  | DM8006
  | DM8009
  | DM10010L
  | DM10010
  | DMH3510
  | DMH6215
  | DMG6220
  deriving DecidableEq, Repr

/-- Modelled from the spec: control-mode enumeration with the wire values
`MIT=1, POS_VEL=2, VEL=3, POS_FORCE=4`. -/
inductive ControlMode
  | MIT
  | POS_VEL
  | VEL
  | POS_FORCE
  deriving DecidableEq, Repr

/-- Numeric value of a control mode as exposed by the bindings. -/
def ControlMode.toNat : ControlMode → Nat
  | .MIT => 1
  | .POS_VEL => 2
  | .VEL => 3
  | .POS_FORCE => 4

/-- Modelled from the spec: callback-mode enumeration
`STATE=0, PARAM=1, IGNORE=2`. -/
inductive CallbackMode
  | STATE
  | PARAM
  | IGNORE
  deriving DecidableEq, Repr

/-- Modelled from the spec: absolute symmetric ranges `(p_max, v_max, t_max)`
used for per-type fixed-point quantisation. -/
structure LimitParam where
  p_max : ℚ
  v_max : ℚ
  t_max : ℚ
  deriving DecidableEq, Repr

/-- Modelled from the spec: the per-MotorType limit table (design-time
constants).  The specification fixes the DM4310 triple `(12.5, 30, 10)`
through its concrete scenarios (state decode with `±p_max = ±12.5`,
`PMAX = 12.5`) and the test data; it does not list numbers for the other
twelve variants, so those entries carry representative positive ranges.
No theorem below depends on anything but their positivity. -/
def limitParam : MotorType → LimitParam
  | .DM3507 => ⟨12.5, 50, 5⟩
  | .DM4310 => ⟨12.5, 30, 10⟩
  | .DM4310_48V => ⟨12.5, 50, 10⟩
  | .DM4340 => ⟨12.5, 10, 28⟩
  | .DM4340_48V => ⟨12.5, 21, 28⟩
  | .DM6006 => ⟨12.5, 45, 20⟩
  | .DM8006 => ⟨12.5, 45, 40⟩
  | .DM8009 => ⟨12.5, 45, 54⟩
  | .DM10010L => ⟨12.5, 25, 200⟩
  | .DM10010 => ⟨12.5, 20, 200⟩
  | .DMH3510 => ⟨12.5, 280, 1⟩
  | .DMH6215 => ⟨12.5, 45, 10⟩
  | .DMG6220 => ⟨12.5, 45, 10⟩

/-- Modelled from the spec: symmetric fixed-point encode.  A value `x` with
range `[-X, +X]` in `n` bits maps to `round((x + X) * (2^n - 1) / (2X))`,
clamped to `[0, 2^n - 1]`. -/
def encodeFixed (X : ℚ) (n : ℕ) (x : ℚ) : ℕ :=
  (max 0 (min (round ((x + X) * (2 ^ n - 1) / (2 * X))) (2 ^ n - 1))).toNat

/-- Modelled from the spec: symmetric fixed-point decode, the inverse map
`u ↦ u * 2X / (2^n - 1) - X`. -/
def decodeFixed (X : ℚ) (n : ℕ) (u : ℕ) : ℚ :=
  (u : ℚ) * (2 * X) / (2 ^ n - 1) - X

/-- Modelled from the spec: asymmetric fixed-point encode over `[lo, hi]`
(used for the MIT gains `kp ∈ [0, 500]` and `kd ∈ [0, 5]`). -/
def encodeRange (lo hi : ℚ) (n : ℕ) (x : ℚ) : ℕ :=
  (max 0 (min (round ((x - lo) * (2 ^ n - 1) / (hi - lo))) (2 ^ n - 1))).toNat

/-- The three quantised telemetry fields of a state or MIT frame. -/
inductive QuantField
  | q
  | dq
  | tau
  deriving DecidableEq, Repr

/-- Symmetric range of a quantised field for a given motor type:
`±p_max` for position, `±v_max` for velocity, `±t_max` for torque. -/
def fieldRange (mt : MotorType) : QuantField → ℚ
  | .q => (limitParam mt).p_max
  | .dq => (limitParam mt).v_max
  | .tau => (limitParam mt).t_max

/-- Bit width of a quantised field: position 16 bits, velocity and torque
12 bits. -/
def fieldBits : QuantField → ℕ
  | .q => 16
  | .dq => 12
  | .tau => 12

theorem fieldRange_pos (mt : MotorType) (f : QuantField) : 0 < fieldRange mt f := by
  cases mt <;> cases f <;> norm_num [fieldRange, limitParam]

theorem one_le_fieldBits (f : QuantField) : 1 ≤ fieldBits f := by
  cases f <;> norm_num [fieldBits]

/-- Core quantisation error bound: for `x` inside the symmetric range the
clamp is inert, and decoding the rounded code word lands within half an
LSB (hence within one LSB) of `x`. -/
theorem decodeFixed_encodeFixed (X : ℚ) (n : ℕ) (x : ℚ)
    (hX : 0 < X) (hn : 1 ≤ n) (hlo : -X ≤ x) (hhi : x ≤ X) :
    |decodeFixed X n (encodeFixed X n x) - x| ≤ 2 * X / (2 ^ n - 1) := by
  have h2n : (2 : ℚ) ≤ 2 ^ n := by
    calc (2 : ℚ) = 2 ^ 1 := (pow_one 2).symm
    _ ≤ 2 ^ n := by
      apply pow_le_pow_right₀ (by norm_num) hn
  have hden : (0 : ℚ) < 2 ^ n - 1 := by linarith
  have hden' : (2 : ℚ) ^ n - 1 ≠ 0 := ne_of_gt hden
  have h2X : (0 : ℚ) < 2 * X := by linarith
  set y : ℚ := (x + X) * (2 ^ n - 1) / (2 * X) with hy
  have hy0 : 0 ≤ y := by
    apply div_nonneg _ (le_of_lt h2X)
    have : 0 ≤ x + X := by linarith
    positivity
  have hytop : y ≤ 2 ^ n - 1 := by
    rw [hy, div_le_iff₀ h2X]
    have hxX : x + X ≤ 2 * X := by linarith
    calc (x + X) * (2 ^ n - 1) ≤ 2 * X * (2 ^ n - 1) := by
          apply mul_le_mul_of_nonneg_right hxX (le_of_lt hden)
    _ = (2 ^ n - 1) * (2 * X) := by ring
  have hr0 : (0 : ℤ) ≤ round y := by
    rw [round_eq, Int.le_floor]
    push_cast
    linarith
  have hrtop : round y ≤ (2 : ℤ) ^ n - 1 := by
    have hlt : round y < (2 : ℤ) ^ n := by
      rw [round_eq, Int.floor_lt]
      push_cast
      linarith
    linarith
  have henc : encodeFixed X n x = (round y).toNat := by
    unfold encodeFixed
    rw [← hy, min_eq_left hrtop, max_eq_right hr0]
  have hcast : (((round y).toNat : ℕ) : ℚ) = ((round y : ℤ) : ℚ) := by
    exact_mod_cast congrArg (fun z : ℤ => (z : ℚ)) (Int.toNat_of_nonneg hr0)
  have key : ((round y : ℤ) : ℚ) * (2 * X) / (2 ^ n - 1) - X - x
      = (((round y : ℤ) : ℚ) - y) * (2 * X) / (2 ^ n - 1) := by
    rw [hy]
    field_simp
    ring
  have habs : |((round y : ℤ) : ℚ) - y| ≤ 1 / 2 := by
    have := abs_sub_round y
    rwa [abs_sub_comm] at this
  rw [henc]
  unfold decodeFixed
  rw [hcast, key, abs_div, abs_mul, abs_of_pos h2X, abs_of_pos hden]
  calc |((round y : ℤ) : ℚ) - y| * (2 * X) / (2 ^ n - 1)
      ≤ 1 / 2 * (2 * X) / (2 ^ n - 1) := by
        apply div_le_div_of_nonneg_right _ (le_of_lt hden)
        exact mul_le_mul_of_nonneg_right habs (le_of_lt h2X)
    _ ≤ 2 * X / (2 ^ n - 1) := by
        apply div_le_div_of_nonneg_right _ (le_of_lt hden)
        linarith

/-- Exact value of an IEEE-754 binary32 bit pattern: `none` for the
infinity/NaN exponent, otherwise the denoted rational (subnormals via the
`2^-149` scale, normals via `(2^23 + m) * 2^(e - 150)`). -/
def f32FromBits (b : ℕ) : Option ℚ :=
  let s : ℕ := b / 2 ^ 31 % 2
  let e : ℕ := b / 2 ^ 23 % 2 ^ 8
  let m : ℕ := b % 2 ^ 23
  if e = 255 then none
  else
    let mag : ℚ :=
      if e = 0 then (m : ℚ) / 2 ^ 149
      else if 150 ≤ e then ((2 ^ 23 + m : ℕ) : ℚ) * 2 ^ (e - 150)
      else ((2 ^ 23 + m : ℕ) : ℚ) / 2 ^ (150 - e)
    some (if s = 1 then -mag else mag)

/-- IEEE-754 binary32 bit pattern nearest to a rational (sign, biased
exponent, 23-bit mantissa; overflow saturates to infinity).  Ties round
up; the tie direction is unobservable in the properties below. -/
def f32bits (x : ℚ) : ℕ :=
  if x = 0 then 0
  else
    let s : ℕ := if x < 0 then 2 ^ 31 else 0
    let a : ℚ := |x|
    let e : ℤ := Int.log 2 a
    if 127 < e then s + 0x7F800000
    else if e < -126 then
      let m : ℕ := (round (a * 2 ^ (149 : ℕ))).toNat
      if m < 2 ^ 23 then s + m else s + 2 ^ 23
    else
      let m : ℕ := (round (a * (2 : ℚ) ^ (23 - e))).toNat
      if m < 2 ^ 24 then s + (e + 127).toNat * 2 ^ 23 + (m - 2 ^ 23)
      else if e = 127 then s + 0x7F800000
      else s + (e + 128).toNat * 2 ^ 23

/-- Little-endian byte extraction of a 32-bit word. -/
def bytesLE4 (v : ℕ) : List ℕ :=
  [v % 256, v / 2 ^ 8 % 256, v / 2 ^ 16 % 256, v / 2 ^ 24 % 256]

/-- Little-endian 32-bit word from four bytes. -/
def wordLE4 (b0 b1 b2 b3 : ℕ) : ℕ :=
  b0 + b1 * 2 ^ 8 + b2 * 2 ^ 16 + b3 * 2 ^ 24

/-- Modelled from the spec: MIT command payload `{kp, kd, q, dq, tau}`,
all fields defaulting to zero. -/
structure MITParam where
  kp : ℚ := 0
  kd : ℚ := 0
  q : ℚ := 0
  dq : ℚ := 0
  tau : ℚ := 0
  deriving DecidableEq, Repr

/-- Modelled from the spec: POS_VEL command payload `{q, dq}`. -/
structure PosVelParam where
  q : ℚ := 0
  dq : ℚ := 0
  deriving DecidableEq, Repr

/-- Modelled from the spec: POS_FORCE command payload `{q, dq, i}`. -/
structure PosForceParam where
  q : ℚ := 0
  dq : ℚ := 0
  i : ℚ := 0
  deriving DecidableEq, Repr

/-- Modelled from the spec: decoded state-frame record; the default value
(fresh motor cache) is all zeroes with `valid = false`. -/
structure MotorStateResult where
  position : ℚ := 0
  velocity : ℚ := 0
  torque : ℚ := 0
  t_mos : ℕ := 0
  t_rotor : ℕ := 0
  valid : Bool := false
  deriving DecidableEq, Repr

/-- Modelled from the spec: decoded parameter-frame record.  `value` is the
exact rational denoted by the four payload bytes (`none` for an
infinity/NaN float pattern). -/
structure ParamResult where
  rid : ℕ := 0
  value : Option ℚ := none
  valid : Bool := false
  deriving DecidableEq, Repr

/-- Modelled from the spec: a motor owns its identity
`(type, send_id, recv_id, control_mode)`, a runtime-overridable limit
triple, the mutable caches of the last decoded state and parameter, the
enabled flag and the callback mode. -/
structure Motor where
  motor_type : MotorType
  send_can_id : ℕ
  recv_can_id : ℕ
  control_mode : ControlMode
  limit : LimitParam
  state : MotorStateResult
  last_param : ParamResult
  enabled : Bool
  callback_mode : CallbackMode
  deriving DecidableEq, Repr

/-- Modelled from the spec and the compliance tests:
`Motor(type, send_id, recv_id, control_mode=MIT)` — the control mode
defaults to MIT, the limit triple comes from the per-type table, the state
cache starts zeroed and invalid, and the motor starts disabled. -/
def Motor.new (t : MotorType) (send_id recv_id : ℕ)
    (mode : ControlMode := .MIT) : Motor :=
  { motor_type := t
    send_can_id := send_id
    recv_can_id := recv_id
    control_mode := mode
    limit := limitParam t
    state := {}
    last_param := {}
    enabled := false
    callback_mode := .STATE }

/-- Accessor for the cached position. -/
def Motor.get_position (m : Motor) : ℚ := m.state.position

/-- Accessor for the cached velocity. -/
def Motor.get_velocity (m : Motor) : ℚ := m.state.velocity

/-- Accessor for the cached torque. -/
def Motor.get_torque (m : Motor) : ℚ := m.state.torque

/-- Accessor for the cached MOSFET temperature. -/
def Motor.get_state_tmos (m : Motor) : ℕ := m.state.t_mos

/-- Accessor for the cached rotor temperature. -/
def Motor.get_state_trotor (m : Motor) : ℕ := m.state.t_rotor

/-- Accessor for the enabled flag. -/
def Motor.is_enabled (m : Motor) : Bool := m.enabled

/-- Modelled from the spec: codec output, a CAN ID plus an 8-byte payload. -/
structure CANPacket where
  send_can_id : ℕ
  data : List ℕ
  deriving DecidableEq, Repr

/-- Modelled from the spec: classic CAN frame (ID plus up to 8 data bytes). -/
structure CanFrame where
  can_id : ℕ
  data : List ℕ
  deriving DecidableEq, Repr

namespace CanPacketEncoder

/-- Modelled from the spec: enable command — addressed to the motor's send
ID, payload seven `0xFF` bytes then `0xFC`. -/
def create_enable_command (m : Motor) : CANPacket :=
  ⟨m.send_can_id, [0xFF, 0xFF, 0xFF, 0xFF, 0xFF, 0xFF, 0xFF, 0xFC]⟩

/-- Modelled from the spec: disable command — addressed to the motor's send
ID, payload seven `0xFF` bytes then `0xFD`. -/
def create_disable_command (m : Motor) : CANPacket :=
  ⟨m.send_can_id, [0xFF, 0xFF, 0xFF, 0xFF, 0xFF, 0xFF, 0xFF, 0xFD]⟩

/-- Modelled from the spec: set-zero command — addressed to the motor's send
ID, payload seven `0xFF` bytes then `0xFE`. -/
def create_set_zero_command (m : Motor) : CANPacket :=
  ⟨m.send_can_id, [0xFF, 0xFF, 0xFF, 0xFF, 0xFF, 0xFF, 0xFF, 0xFE]⟩

/-- Modelled from the spec: refresh (state poll) — broadcast ID `0x7FF`,
payload `[send_id_lo, send_id_hi, CC, 00, 00, 00, 00, 00]`. -/
def create_refresh_command (m : Motor) : CANPacket :=
  ⟨0x7FF, [m.send_can_id % 256, m.send_can_id / 256 % 256, 0xCC, 0, 0, 0, 0, 0]⟩

/-- Modelled from the spec: set-control-mode — broadcast ID `0x7FF`, a
write-register sequence targeting the `CTRL_MODE` register (index 10). -/
def create_set_control_mode_command (m : Motor) (mode : ControlMode) : CANPacket :=
  ⟨0x7FF, [m.send_can_id % 256, m.send_can_id / 256 % 256, 0x55, 10,
           mode.toNat, 0, 0, 0]⟩

/-- Modelled from the spec: query-param — broadcast ID `0x7FF`, a
read-register sequence for the given register index. -/
def create_query_param_command (m : Motor) (rid : ℕ) : CANPacket :=
  ⟨0x7FF, [m.send_can_id % 256, m.send_can_id / 256 % 256, 0x33, rid % 256,
           0, 0, 0, 0]⟩

/-- Modelled from the spec: MIT payload — big-endian bit-packed
`q` (16 bits over `±p_max`), `dq` (12 bits over `±v_max`),
`kp` (12 bits over `[0, 500]`), `kd` (12 bits over `[0, 5]`) and
`tau` (12 bits over `±t_max`). -/
def mitPayload (lim : LimitParam) (p : MITParam) : List ℕ :=
  let qu := encodeFixed lim.p_max 16 p.q
  let dqu := encodeFixed lim.v_max 12 p.dq
  let kpu := encodeRange 0 500 12 p.kp
  let kdu := encodeRange 0 5 12 p.kd
  let tauu := encodeFixed lim.t_max 12 p.tau
  [qu / 256, qu % 256, dqu / 16, dqu % 16 * 16 + kpu / 256, kpu % 256,
   kdu / 16, kdu % 16 * 16 + tauu / 256, tauu % 256]

/-- Modelled from the spec: MIT control command — CAN ID is the send ID
with offset 0, payload is the packed MIT fields. -/
def create_mit_control_command (m : Motor) (p : MITParam) : CANPacket :=
  ⟨m.send_can_id, mitPayload m.limit p⟩

/-- Modelled from the spec: POS_VEL control command — CAN ID is the send ID
plus `0x100`, payload is `q` then `dq` as little-endian IEEE-754. -/
def create_posvel_control_command (m : Motor) (p : PosVelParam) : CANPacket :=
  ⟨m.send_can_id + 0x100, bytesLE4 (f32bits p.q) ++ bytesLE4 (f32bits p.dq)⟩

/-- Modelled from the spec: VEL control command — CAN ID is the send ID
plus `0x200`, payload is `dq` as little-endian IEEE-754 plus four reserved
zero bytes. -/
def create_vel_control_command (m : Motor) (dq : ℚ) : CANPacket :=
  ⟨m.send_can_id + 0x200, bytesLE4 (f32bits dq) ++ [0, 0, 0, 0]⟩

/-- Modelled from the spec: POS_FORCE payload — bit-packed `q` (16 bits),
`dq` (12 bits) and current `i` (12 bits); the residual bytes are zero. -/
def posforcePayload (lim : LimitParam) (p : PosForceParam) : List ℕ :=
  let qu := encodeFixed lim.p_max 16 p.q
  let dqu := encodeFixed lim.v_max 12 p.dq
  let iu := encodeFixed lim.t_max 12 p.i
  [qu / 256, qu % 256, dqu / 16, dqu % 16 * 16 + iu / 256, iu % 256, 0, 0, 0]

/-- Modelled from the spec: POS_FORCE control command — CAN ID is the send
ID plus `0x300`. -/
def create_posforce_control_command (m : Motor) (p : PosForceParam) : CANPacket :=
  ⟨m.send_can_id + 0x300, posforcePayload m.limit p⟩

end CanPacketEncoder

namespace CanPacketDecoder

/-- Modelled from the spec: register indices of the known `MotorVariable`
set (the entries the specification enumerates). -/
def knownVariables : List ℕ := [0, 1, 4, 5, 6, 7, 8, 9, 10, 21, 22, 23, 56, 80, 81]

/-- Modelled from the spec: registers whose parameter payload is decoded as
little-endian IEEE-754 — `PMAX = 21`, `VMAX = 22`, `TMAX = 23`; the other
registers decode as little-endian u32. -/
def floatVariables : List ℕ := [21, 22, 23]

/-- Modelled from the spec: parameter-frame decoder.  An 8-byte frame
`[master_id_lo, rid, 00, 00, b0, b1, b2, b3]` yields the echoed register
index, the per-variable interpretation of the four little-endian data
bytes, and `valid = true` exactly when `rid` is in the known register set;
a structurally malformed frame yields `valid = false`. -/
def parse_motor_param_data (data : List ℕ) : ParamResult :=
  match data with
  | [_, rid, _, _, b4, b5, b6, b7] =>
    let bits := wordLE4 b4 b5 b6 b7
    { rid := rid
      value := if rid ∈ floatVariables then f32FromBits bits else some (bits : ℚ)
      valid := decide (rid ∈ knownVariables) }
  | _ => { rid := 0, value := none, valid := false }

/-- Modelled from the spec and the compliance-test frame format
`[id, pos_h, pos_l, vel_h, vel_l, tau_h, tau_l, temp]`: byte 0 carries the
error nibble (high) and the id nibble (low); position is the 16-bit
big-endian word in bytes 1-2, velocity the 12-bit word in bytes 3-4 and
torque the 12-bit word in bytes 5-6, each dequantised over the motor's
limit triple; the temperatures are read from bytes 6 and 7.  The result is
`valid` exactly when the error nibble is 0 or 1 and the id nibble equals
the low nibble of the motor's configured send ID; a malformed frame yields
the invalid zero record. -/
def parse_motor_state_data (m : Motor) (data : List ℕ) : MotorStateResult :=
  match data with
  | [b0, b1, b2, b3, b4, b5, b6, b7] =>
    let err := b0 / 16
    let id_nibble := b0 % 16
    let qu := b1 * 256 + b2
    let dqu := b3 % 16 * 256 + b4
    let tauu := b5 % 16 * 256 + b6
    { position := decodeFixed m.limit.p_max 16 qu
      velocity := decodeFixed m.limit.v_max 12 dqu
      torque := decodeFixed m.limit.t_max 12 tauu
      t_mos := b6
      t_rotor := b7
      valid := decide ((err = 0 ∨ err = 1) ∧ id_nibble = m.send_can_id % 16) }
  | _ => {}

end CanPacketDecoder

/-- Error kinds surfaced by the core (values, not type names). -/
inductive CanError
  | arityError
  | socketError
  | configError
  | timeoutKind
  | decodeError
  deriving DecidableEq, Repr

/-- Modelled from the spec: a device collection owns an ordered list of
motors; the receive-ID index is represented by lookup over the distinct
`recv_can_id`s. -/
structure DeviceCollection where
  motors : List Motor
  deriving Repr

/-- Modelled from the spec: per-motor step of the `recv_all` dispatch state
machine for one inbound frame.  A frame whose CAN ID matches the motor's
receive ID is decoded according to the motor's callback mode: `IGNORE`
drops it; `STATE` overwrites the cached state only when the decode is
valid (also refreshing the enabled flag from the error nibble, 0 being the
ENABLED normal state); `PARAM` overwrites the cached parameter only when
the decode is valid.  Any other frame leaves the motor untouched. -/
def dispatchMotor (m : Motor) (f : CanFrame) : Motor :=
  if m.recv_can_id = f.can_id then
    match m.callback_mode with
    | .IGNORE => m
    | .STATE =>
      let r := CanPacketDecoder.parse_motor_state_data m f.data
      if r.valid then
        { m with state := r, enabled := decide (f.data.headD 0 / 16 = 0) }
      else m
    | .PARAM =>
      let r := CanPacketDecoder.parse_motor_param_data f.data
      if r.valid then { m with last_param := r } else m
  else m

/-- Modelled from the spec: dispatch of one inbound frame across a device
collection (each motor owns a distinct receive ID, so at most one motor is
affected). -/
def dispatchFrame (c : DeviceCollection) (f : CanFrame) : DeviceCollection :=
  ⟨c.motors.map (fun m => dispatchMotor m f)⟩

/-- Modelled from the spec: the `recv_all` drain loop, dispatching the
inbound frames in arrival order. -/
def recvAll (c : DeviceCollection) (fs : List CanFrame) : DeviceCollection :=
  fs.foldl dispatchFrame c

/-- Modelled from the spec: `mit_control_all(params)` validates
`len(params) == motor_count`; on success it encodes one MIT command per
motor (in motor-index order) and writes them to the socket, otherwise it
raises the arity error and emits no frame.  The result triple is the
collection after the call, the frames written, and the error raised if
any. -/
def mit_control_all (c : DeviceCollection) (ps : List MITParam) :
    DeviceCollection × List CANPacket × Option CanError :=
  if ps.length = c.motors.length then
    (c, List.zipWith CanPacketEncoder.create_mit_control_command c.motors ps, none)
  else
    (c, [], some .arityError)

/-- C1: every 8-byte parameter-response frame whose rid names the float
registers PMAX (21), VMAX (22) or TMAX (23) decodes with the four data
bytes interpreted as a little-endian IEEE-754 float and `valid = true`
(those rids are in the known register set); in particular the PMAX frame
with payload tail `[00 00 48 41]` decodes to rid 21, value 12.5,
valid true. -/
theorem c1_param_decode_float (b0 b4 b5 b6 b7 rid : ℕ)
    (h : rid = 21 ∨ rid = 22 ∨ rid = 23) :
    CanPacketDecoder.parse_motor_param_data [b0, rid, 0, 0, b4, b5, b6, b7] =
      { rid := rid, value := f32FromBits (wordLE4 b4 b5 b6 b7), valid := true } ∧
    CanPacketDecoder.parse_motor_param_data [0, 21, 0, 0, 0x00, 0x00, 0x48, 0x41] =
      { rid := 21, value := some (12.5 : ℚ), valid := true } := by
  constructor
  · rcases h with h | h | h <;> subst h <;>
      simp [CanPacketDecoder.parse_motor_param_data,
        CanPacketDecoder.floatVariables, CanPacketDecoder.knownVariables]
  · norm_num [CanPacketDecoder.parse_motor_param_data, f32FromBits, wordLE4,
      CanPacketDecoder.floatVariables, CanPacketDecoder.knownVariables]

/-- C1 witness: the decoder applied at rid 21 with a concrete frame. -/
theorem c1_param_decode_float_witness :
    ((21 : ℕ) = 21 ∨ (21 : ℕ) = 22 ∨ (21 : ℕ) = 23) ∧
    (CanPacketDecoder.parse_motor_param_data [0, 21, 0, 0, 0x00, 0x00, 0x48, 0x41] =
      { rid := 21, value := f32FromBits (wordLE4 0x00 0x00 0x48 0x41), valid := true } ∧
    CanPacketDecoder.parse_motor_param_data [0, 21, 0, 0, 0x00, 0x00, 0x48, 0x41] =
      { rid := 21, value := some (12.5 : ℚ), valid := true }) :=
  ⟨Or.inl rfl, c1_param_decode_float 0 0x00 0x00 0x48 0x41 21 (Or.inl rfl)⟩

/-- C2: for a motor with send ID `S` the MIT encoder emits CAN ID `S`,
POS_VEL `S + 0x100`, VEL `S + 0x200`, POS_FORCE `S + 0x300`, while
Refresh, SetControlMode and QueryParam emit the broadcast ID `0x7FF`; each
of these packets carries exactly 8 data bytes. -/
theorem c2_can_id_offsets (m : Motor) (p : MITParam) (pv : PosVelParam)
    (dq : ℚ) (pf : PosForceParam) (mode : ControlMode) (rid : ℕ) :
    (CanPacketEncoder.create_mit_control_command m p).send_can_id = m.send_can_id ∧
    (CanPacketEncoder.create_posvel_control_command m pv).send_can_id = m.send_can_id + 0x100 ∧
    (CanPacketEncoder.create_vel_control_command m dq).send_can_id = m.send_can_id + 0x200 ∧
    (CanPacketEncoder.create_posforce_control_command m pf).send_can_id = m.send_can_id + 0x300 ∧
    (CanPacketEncoder.create_refresh_command m).send_can_id = 0x7FF ∧
    (CanPacketEncoder.create_set_control_mode_command m mode).send_can_id = 0x7FF ∧
    (CanPacketEncoder.create_query_param_command m rid).send_can_id = 0x7FF ∧
    (CanPacketEncoder.create_mit_control_command m p).data.length = 8 ∧
    (CanPacketEncoder.create_posvel_control_command m pv).data.length = 8 ∧
    (CanPacketEncoder.create_vel_control_command m dq).data.length = 8 ∧
    (CanPacketEncoder.create_posforce_control_command m pf).data.length = 8 ∧
    (CanPacketEncoder.create_refresh_command m).data.length = 8 ∧
    (CanPacketEncoder.create_set_control_mode_command m mode).data.length = 8 ∧
    (CanPacketEncoder.create_query_param_command m rid).data.length = 8 := by
  refine ⟨rfl, rfl, rfl, rfl, rfl, rfl, rfl, ?_, ?_, ?_, ?_, rfl, rfl, rfl⟩ <;>
    simp [CanPacketEncoder.create_mit_control_command,
      CanPacketEncoder.create_posvel_control_command,
      CanPacketEncoder.create_vel_control_command,
      CanPacketEncoder.create_posforce_control_command,
      CanPacketEncoder.mitPayload, CanPacketEncoder.posforcePayload, bytesLE4]

/-- C3: for every motor the enable, disable and set-zero encoders address
the motor's send ID with an 8-byte payload of seven `0xFF` bytes followed
by `0xFC`, `0xFD` and `0xFE` respectively. -/
theorem c3_command_tails (m : Motor) :
    CanPacketEncoder.create_enable_command m =
      ⟨m.send_can_id, [0xFF, 0xFF, 0xFF, 0xFF, 0xFF, 0xFF, 0xFF, 0xFC]⟩ ∧
    CanPacketEncoder.create_disable_command m =
      ⟨m.send_can_id, [0xFF, 0xFF, 0xFF, 0xFF, 0xFF, 0xFF, 0xFF, 0xFD]⟩ ∧
    CanPacketEncoder.create_set_zero_command m =
      ⟨m.send_can_id, [0xFF, 0xFF, 0xFF, 0xFF, 0xFF, 0xFF, 0xFF, 0xFE]⟩ :=
  ⟨rfl, rfl, rfl⟩

/-- C4: the state-frame decoder reports `valid = true` exactly when the
frame's error nibble is 0 or 1 and its id nibble equals the low nibble of
the motor's configured identity; the DM4310 frame
`[01 80 00 08 00 08 00 28]` decodes to position, velocity and torque all
within 1/100 of zero, `t_mos = 0`, `t_rotor = 0x28`, `valid = true`. -/
theorem c4_state_decode (m : Motor) (b0 b1 b2 b3 b4 b5 b6 b7 : ℕ) :
    ((CanPacketDecoder.parse_motor_state_data m
        [b0, b1, b2, b3, b4, b5, b6, b7]).valid = true ↔
      ((b0 / 16 = 0 ∨ b0 / 16 = 1) ∧ b0 % 16 = m.send_can_id % 16)) ∧
    (|(CanPacketDecoder.parse_motor_state_data (Motor.new .DM4310 0x01 0x11)
        [0x01, 0x80, 0x00, 0x08, 0x00, 0x08, 0x00, 0x28]).position| ≤ 1 / 100 ∧
     |(CanPacketDecoder.parse_motor_state_data (Motor.new .DM4310 0x01 0x11)
        [0x01, 0x80, 0x00, 0x08, 0x00, 0x08, 0x00, 0x28]).velocity| ≤ 1 / 100 ∧
     |(CanPacketDecoder.parse_motor_state_data (Motor.new .DM4310 0x01 0x11)
        [0x01, 0x80, 0x00, 0x08, 0x00, 0x08, 0x00, 0x28]).torque| ≤ 1 / 100 ∧
     (CanPacketDecoder.parse_motor_state_data (Motor.new .DM4310 0x01 0x11)
        [0x01, 0x80, 0x00, 0x08, 0x00, 0x08, 0x00, 0x28]).t_mos = 0 ∧
     (CanPacketDecoder.parse_motor_state_data (Motor.new .DM4310 0x01 0x11)
        [0x01, 0x80, 0x00, 0x08, 0x00, 0x08, 0x00, 0x28]).t_rotor = 0x28 ∧
     (CanPacketDecoder.parse_motor_state_data (Motor.new .DM4310 0x01 0x11)
        [0x01, 0x80, 0x00, 0x08, 0x00, 0x08, 0x00, 0x28]).valid = true) := by
  constructor
  · simp [CanPacketDecoder.parse_motor_state_data]
  · refine ⟨?_, ?_, ?_, rfl, rfl, by decide⟩ <;>
      norm_num [CanPacketDecoder.parse_motor_state_data, decodeFixed,
        Motor.new, limitParam, abs_le]

/-- C5: for every motor type and quantised field (position 16 bits over
`±p_max`, velocity 12 bits over `±v_max`, torque 12 bits over `±t_max`)
and every in-range value, decoding the encoded code word lands within one
LSB quantum `2X / (2^n - 1)` of the original value. -/
theorem c5_quantisation_round_trip (mt : MotorType) (f : QuantField) (x : ℚ)
    (hlo : -(fieldRange mt f) ≤ x) (hhi : x ≤ fieldRange mt f) :
    |decodeFixed (fieldRange mt f) (fieldBits f)
        (encodeFixed (fieldRange mt f) (fieldBits f) x) - x|
      ≤ 2 * fieldRange mt f / (2 ^ fieldBits f - 1) :=
  decodeFixed_encodeFixed _ _ _ (fieldRange_pos mt f) (one_le_fieldBits f) hlo hhi

/-- C5 witness: the round trip evaluated at the DM4310 position field on
the in-range value 1. -/
theorem c5_quantisation_round_trip_witness :
    (-(fieldRange .DM4310 .q) ≤ (1 : ℚ) ∧ (1 : ℚ) ≤ fieldRange .DM4310 .q) ∧
    |decodeFixed (fieldRange .DM4310 .q) (fieldBits .q)
        (encodeFixed (fieldRange .DM4310 .q) (fieldBits .q) 1) - 1|
      ≤ 2 * fieldRange .DM4310 .q / (2 ^ fieldBits .q - 1) :=
  ⟨⟨by norm_num [fieldRange, limitParam], by norm_num [fieldRange, limitParam]⟩,
   c5_quantisation_round_trip .DM4310 .q 1
     (by norm_num [fieldRange, limitParam]) (by norm_num [fieldRange, limitParam])⟩

/-- C6: `mit_control_all` with a parameter list whose length differs from
the motor count raises the arity error, writes zero frames and leaves the
collection (hence every motor's cached state) unchanged. -/
theorem c6_mit_control_all_arity (c : DeviceCollection) (ps : List MITParam)
    (h : ps.length ≠ c.motors.length) :
    mit_control_all c ps = (c, [], some .arityError) := by
  unfold mit_control_all
  simp [h]

/-- C6 witness: an empty parameter list against a one-motor collection. -/
theorem c6_mit_control_all_arity_witness :
    ([] : List MITParam).length ≠
      (DeviceCollection.mk [Motor.new .DM4310 0x01 0x11]).motors.length ∧
    mit_control_all ⟨[Motor.new .DM4310 0x01 0x11]⟩ [] =
      (⟨[Motor.new .DM4310 0x01 0x11]⟩, [], some .arityError) :=
  ⟨by simp, c6_mit_control_all_arity ⟨[Motor.new .DM4310 0x01 0x11]⟩ [] (by simp)⟩

/-- C7: during `recv_all` dispatch, a motor in STATE callback mode hit by a
frame on its receive ID whose state decode is invalid keeps its cached
state unchanged. -/
theorem c7_invalid_state_decode_keeps_cache (c : DeviceCollection) (f : CanFrame)
    (i : ℕ) (hi : i < c.motors.length)
    (hlen : i < (dispatchFrame c f).motors.length)
    (hmode : (c.motors[i]).callback_mode = .STATE)
    (hinv : (CanPacketDecoder.parse_motor_state_data (c.motors[i]) f.data).valid
      = false) :
    ((dispatchFrame c f).motors[i]).state = (c.motors[i]).state := by
  have hstep : ∀ m : Motor, m.callback_mode = .STATE →
      (CanPacketDecoder.parse_motor_state_data m f.data).valid = false →
      (dispatchMotor m f).state = m.state := by
    intro m hm hv
    unfold dispatchMotor
    split
    · rw [hm]
      simp [hv]
    · rfl
  have hmap : (dispatchFrame c f).motors[i] = dispatchMotor (c.motors[i]) f := by
    simp [dispatchFrame]
  rw [hmap]
  exact hstep _ hmode hinv

/-- C7 witness: a one-motor collection in STATE mode and a frame on its
receive ID whose error nibble is 2 (invalid decode). -/
theorem c7_invalid_state_decode_keeps_cache_witness :
    ((0 : ℕ) < (DeviceCollection.mk [Motor.new .DM4310 0x01 0x11]).motors.length ∧
     (0 : ℕ) < (dispatchFrame ⟨[Motor.new .DM4310 0x01 0x11]⟩
        ⟨0x11, [0x21, 0x80, 0x00, 0x08, 0x00, 0x08, 0x00, 0x28]⟩).motors.length ∧
     ((DeviceCollection.mk [Motor.new .DM4310 0x01 0x11]).motors.getD 0
        (Motor.new .DM4310 0 0)).callback_mode = .STATE ∧
     (CanPacketDecoder.parse_motor_state_data
        ((DeviceCollection.mk [Motor.new .DM4310 0x01 0x11]).motors.getD 0
          (Motor.new .DM4310 0 0))
        [0x21, 0x80, 0x00, 0x08, 0x00, 0x08, 0x00, 0x28]).valid = false) ∧
    ((dispatchFrame ⟨[Motor.new .DM4310 0x01 0x11]⟩
        ⟨0x11, [0x21, 0x80, 0x00, 0x08, 0x00, 0x08, 0x00, 0x28]⟩).motors.getD 0
      (Motor.new .DM4310 0 0)).state =
      ((DeviceCollection.mk [Motor.new .DM4310 0x01 0x11]).motors.getD 0
        (Motor.new .DM4310 0 0)).state := by
  refine ⟨⟨by simp, by simp [dispatchFrame], by decide, by decide⟩, ?_⟩
  have h := c7_invalid_state_decode_keeps_cache ⟨[Motor.new .DM4310 0x01 0x11]⟩
    ⟨0x11, [0x21, 0x80, 0x00, 0x08, 0x00, 0x08, 0x00, 0x28]⟩ 0
    (by simp) (by simp [dispatchFrame]) (by decide) (by decide)
  simpa using h

/-- C8: the refresh encoder broadcasts on CAN ID `0x7FF` with payload
`[send_id_lo, send_id_hi, CC, 00, 00, 00, 00, 00]`; with send ID 7 the
payload is `[07 00 CC 00 00 00 00 00]`. -/
theorem c8_refresh_command (m : Motor) :
    CanPacketEncoder.create_refresh_command m =
      ⟨0x7FF, [m.send_can_id % 256, m.send_can_id / 256 % 256, 0xCC, 0, 0, 0, 0, 0]⟩ ∧
    CanPacketEncoder.create_refresh_command (Motor.new .DM4310 7 0x17) =
      ⟨0x7FF, [0x07, 0x00, 0xCC, 0, 0, 0, 0, 0]⟩ :=
  ⟨rfl, by decide⟩

/-- C10: a freshly constructed motor, with no control-mode argument,
defaults to MIT control mode, zero cached position, velocity, torque and
temperatures, and is not enabled — for every one of the 13 motor types. -/
theorem c10_fresh_motor_defaults (t : MotorType) (s r : ℕ) :
    (Motor.new t s r).control_mode = .MIT ∧
    (Motor.new t s r).get_position = 0 ∧
    (Motor.new t s r).get_velocity = 0 ∧
    (Motor.new t s r).get_torque = 0 ∧
    (Motor.new t s r).get_state_tmos = 0 ∧
    (Motor.new t s r).get_state_trotor = 0 ∧
    (Motor.new t s r).is_enabled = false :=
  ⟨rfl, rfl, rfl, rfl, rfl, rfl, rfl⟩

end OpenArmCan
